import Mathlib

/-!
Verification development for the netsim repository.

We give a shallow embedding of the path reconstruction routine
(`src/netsim/path_tools.py`: `__segment`, `create_paths`) and of the
simulation driver (`src/netsim/netsim.py`: `simulation`), and prove or
refute the specified properties of these routines.

Grids are embedded as total functions from integer (row, column) pairs;
the unbounded `while` loops of the Python source are embedded with an
explicit fuel argument, returning `none` when the fuel is exhausted
(i.e. when the source loop would still be running after that many
iterations).  The influence-weighted distance transform
(`netsim.iwdt.calculate_iwdt`) and the plain distance transform
(`netsim.iwdt.calculate_dt`) are not part of the sources under
verification; they are taken as abstract function parameters.
-/

namespace Netsim

/-- A path raster: `np.zeros_like` grid over ℤ×ℤ cells with natural values. -/
abbrev Raster := ℤ → ℤ → ℕ

/-- A backlink grid (`blx` or `bly`): signed integer offsets per cell. -/
abbrev BGrid := ℤ → ℤ → ℤ

/-- A real-valued grid (`Gt`, `acs`, `netcost`, ...). -/
abbrev RGrid := ℤ → ℤ → ℝ

/-- The all-zero raster, embedding `np.zeros_like(blx)`. -/
def zeroRaster : Raster := fun _ _ => 0

/-- `path[r, c] = 1`: functional update of a raster at one cell. -/
def mark (path : Raster) (r c : ℤ) : Raster :=
  fun r' c' => if r' = r ∧ c' = c then 1 else path r' c'

/-- One iteration body plus the loop of `__segment` (path_tools.py, lines 52-62):
Bresenham stepping from `(r, c)` toward `(r1, c1)` with error term `e`,
marking each visited cell in `path` and appending it to `rcs`.  The first
location is included, the last one excluded.  `fuel` bounds the number of
iterations; `none` models a loop still running after `fuel` iterations. -/
def segmentLoop (dC dR sC sR r1 c1 : ℤ) :
    ℕ → ℤ → ℤ → ℤ → Raster → List (ℤ × ℤ) → Option (Raster × List (ℤ × ℤ))
  | 0, r, c, _e, path, rcs =>
    if r = r1 ∧ c = c1 then some (path, rcs) else none
  | Nat.succ fuel, r, c, e, path, rcs =>
    if r = r1 ∧ c = c1 then some (path, rcs)
    else
      let e2 := 2 * e
      let c' := if e2 > -dR then c + sC else c
      let e1 := if e2 > -dR then e - dR else e
      let r' := if e2 < dC then r + sR else r
      let e' := if e2 < dC then e1 + dC else e1
      segmentLoop dC dR sC sR r1 c1 fuel r' c' e' (mark path r c) (rcs ++ [(r, c)])

/-- `__segment(r0, c0, r1, c1, path, rcs)` (path_tools.py, lines 9-64):
computes the deltas, step signs and initial error, then runs the
Bresenham loop. -/
def segment (fuel : ℕ) (r0 c0 r1 c1 : ℤ) (path : Raster) (rcs : List (ℤ × ℤ)) :
    Option (Raster × List (ℤ × ℤ)) :=
  let dC := |c1 - c0|
  let dR := |r1 - r0|
  let sC : ℤ := if c0 < c1 then 1 else -1
  let sR : ℤ := if r0 < r1 then 1 else -1
  segmentLoop dC dR sC sR r1 c1 fuel r0 c0 (dC - dR) path rcs

/-- The backlink-following `while` loop of `create_paths`
(path_tools.py, lines 131-141 / 170-180): starting from the destination,
while the backlink offsets at the current cell are not both zero, move to
the predecessor `(r0 + blx[r0,c0], c0 + bly[r0,c0])`, rasterizing each
jump with `segment`.  Returns the raster, the visited list (without the
final cell) and the final cell.  `fuel` bounds the number of loop
iterations. -/
def traceLoop (blx bly : BGrid) (segfuel : ℕ) :
    ℕ → ℤ → ℤ → Raster → List (ℤ × ℤ) → Option (Raster × List (ℤ × ℤ) × ℤ × ℤ)
  | 0, r0, c0, pth, rcs =>
    if blx r0 c0 = 0 ∧ bly r0 c0 = 0 then some (pth, rcs, r0, c0) else none
  | Nat.succ fuel, r0, c0, pth, rcs =>
    if blx r0 c0 = 0 ∧ bly r0 c0 = 0 then some (pth, rcs, r0, c0)
    else
      let r1 := r0 + blx r0 c0
      let c1 := c0 + bly r0 c0
      match segment segfuel r0 c0 r1 c1 pth rcs with
      | none => none
      | some (pth', rcs') => traceLoop blx bly segfuel fuel r1 c1 pth' rcs'

/-- The per-destination body of `create_paths` (path_tools.py, lines
122-145 / 161-184): run the backlink loop from the destination on a fresh
raster and empty visited list, then add the very last location to the
raster and the list. -/
def tracePath (blx bly : BGrid) (fuel segfuel : ℕ) (dest : ℤ × ℤ) :
    Option (Raster × List (ℤ × ℤ)) :=
  match traceLoop blx bly segfuel fuel dest.1 dest.2 zeroRaster [] with
  | none => none
  | some (pth, rcs, r0, c0) => some (mark pth r0 c0, rcs ++ [(r0, c0)])

/-- The dictionary stored for each path by `create_paths`
(path_tools.py, lines 149-152 / 188-191).  The Python `track` is
`np.array(rcs).T`, i.e. the visited cells in order; we keep the list of
(row, column) pairs. -/
structure PathRecord where
  id : ℤ
  origin : ℤ × ℤ
  destination : ℤ × ℤ
  track : List (ℤ × ℤ)
  deriving Repr, DecidableEq

/-- The second return value of `create_paths`: a list of path dictionaries
when there are several destinations (line 157), a single bare dictionary
when there is exactly one (line 196). -/
inductive PathResult where
  | many : List PathRecord → PathResult
  | single : PathRecord → PathResult
  deriving Repr, DecidableEq

/-- Cell-wise addition of rasters, embedding `paths += pth`. -/
def addRaster (a b : Raster) : Raster := fun r c => a r c + b r c

/-- The `for destination in destinations` loop of the several-destinations
branch of `create_paths` (path_tools.py, lines 120-155): trace a path per
destination, incrementing the path number, appending the record, and
adding the per-destination raster into the accumulated `paths` raster. -/
def createPathsMany (blx bly : BGrid) (fuel segfuel : ℕ) (o : ℤ × ℤ) :
    List (ℤ × ℤ) → ℤ → Raster → List PathRecord → Option (Raster × List PathRecord)
  | [], _, paths, acc => some (paths, acc)
  | d :: ds, num, paths, acc =>
    match tracePath blx bly fuel segfuel d with
    | none => none
    | some (pth, rcs) =>
      createPathsMany blx bly fuel segfuel o ds (num + 1) (addRaster paths pth)
        (acc ++ [{ id := num + 1, origin := o, destination := d, track := rcs }])

/-- `create_paths(blx, bly, origin, destinations, start_path)`
(path_tools.py, lines 67-196).  Branches on `len(destinations) > 1`: the
several-destinations branch returns the summed raster and the list of
records; the one-destination branch returns the raster and a single bare
record.  An empty `origin` or empty `destinations` list makes the Python
code raise an `IndexError` at `origin[0]` / `destinations[0]`, embedded
as `none`. -/
def createPaths (blx bly : BGrid) (fuel segfuel : ℕ)
    (origin destinations : List (ℤ × ℤ)) (start_path : ℤ) :
    Option (Raster × PathResult) :=
  match origin with
  | [] => none
  | o :: _ =>
    if 1 < destinations.length then
      match createPathsMany blx bly fuel segfuel o destinations start_path zeroRaster [] with
      | none => none
      | some (paths, recs) => some (paths, PathResult.many recs)
    else
      match destinations with
      | [] => none
      | d :: _ =>
        match tracePath blx bly fuel segfuel d with
        | none => none
        | some (pth, rcs) =>
          some (addRaster zeroRaster pth,
            PathResult.single { id := start_path + 1, origin := o, destination := d, track := rcs })

/-- The records carried by the second return value of `create_paths`. -/
def resRecords : PathResult → List PathRecord
  | PathResult.many l => l
  | PathResult.single r => [r]

/-! Embedding of src/netsim/netsim.py -/

/-- The `netsim_dict` parameters unpacked by `simulation`
(netsim.py, lines 65-69). -/
structure SimParams where
  i : ℝ
  Gmax : ℝ
  T : ℝ
  alpha : ℝ

/-- The `cost_dict` handed to the distance transforms (netsim.py; the
entries are those used by `calculate_iwdt`, see the iwdt docstring and
tests).  `netcost` is the mutable overlay rewritten once per edge. -/
structure CostDict where
  dem : RGrid
  netcost : RGrid
  cellsize : ℝ
  weight : ℝ
  coef : List ℝ

/-- The influence-weighted distance transform
`calculate_iwdt(acs, cost_dict) -> acs, blx, bly` (module `netsim.iwdt`,
not among the sources under verification).  Modelled from the spec: a
deterministic function from the seeded accumulated-cost surface and the
cost field to the converged surface and the two backlink grids. -/
abbrev IwdtFun := RGrid → CostDict → RGrid × BGrid × BGrid

/-- The plain distance transform `calculate_dt(d, cellsize, option=2)`
(module `netsim.iwdt`, not among the sources under verification).
Modelled from the spec: a deterministic function from the seeded grid and
the cellsize to the per-cell distance-to-nearest-seed grid. -/
abbrev DtFun := RGrid → ℝ → RGrid

/-- The mutable state threaded through the edge loop of `simulation`
(netsim.py, lines 72-77 and 100-114): ground potential `Gt`, previous
ground potential `Gt_1`, cumulative `paths` raster, the accumulated
`path_lst`, and the cost dictionary whose `netcost` entry is rewritten
per edge. -/
structure SimState where
  Gt : RGrid
  Gt1 : RGrid
  paths : RGrid
  recs : List PathRecord
  cost : CostDict

/-- The initial state of `simulation` (netsim.py, lines 72-77):
`Gt`, `Gt_1` and `paths` all zero, empty path list. -/
def simInit (cost : CostDict) : SimState :=
  { Gt := fun _ _ => 0, Gt1 := fun _ _ => 0, paths := fun _ _ => 0,
    recs := [], cost := cost }

/-- `pts.loc[pts['id'] == o, 'r'].values[0]` and the matching column
lookup (netsim.py, lines 86-87): the (row, column) of the first point
whose id matches, `none` when no row matches (Python raises
`IndexError`). -/
def ptLookup (pts : List (ℤ × ℤ × ℤ)) (pid : ℤ) : Option (ℤ × ℤ) :=
  (pts.find? (fun p => p.1 = pid)).map (fun p => (p.2.1, p.2.2))

/-- The seeded accumulated-cost surface (netsim.py, lines 90-92):
999999 everywhere, 0 at the origin. -/
def seedAcs (o : ℤ × ℤ) : RGrid :=
  fun r c => if r = o.1 ∧ c = o.2 then 0 else 999999

/-- The ground-potential update of one edge (netsim.py, line 105):
`Gt = Gt_1 - Gt_1/T + path_t * i * (1 - Gt_1/Gmax)`. -/
noncomputable def gtUpdate (prms : SimParams) (g : RGrid) (path_t : Raster) : RGrid :=
  fun r c => g r c - g r c / prms.T + (path_t r c : ℝ) * prms.i * (1 - g r c / prms.Gmax)

open scoped Classical in
/-- The seed grid of the per-edge distance transform (netsim.py, lines
108-109): `d = np.full_like(Gt, 99999.0); d[Gt >= 1.0] = 0.0`. -/
noncomputable def dtSeed (G : RGrid) : RGrid :=
  fun r c => if (1 : ℝ) ≤ G r c then 0 else 99999

/-- The per-edge net-cost rewrite (netsim.py, lines 110-111):
`cost_dict['netcost'] = 1.0 - np.exp(calculate_dt(d, cellsize, option=2) / alpha)`,
with `expF` standing for `np.exp`. -/
noncomputable def netcostOf (dtF : DtFun) (expF : ℝ → ℝ) (prms : SimParams)
    (cellsize : ℝ) (G : RGrid) : RGrid :=
  fun r c => 1 - expF (dtF (dtSeed G) cellsize r c / prms.alpha)

/-- The state after the tail of one edge iteration (netsim.py, lines
100-114): accumulate the paths raster and the record, update `Gt`,
rewrite `netcost`, and copy `Gt` into `Gt_1`. -/
noncomputable def stepState (dtF : DtFun) (expF : ℝ → ℝ) (prms : SimParams)
    (st : SimState) (path_t : Raster) (rec : PathRecord) : SimState :=
  { Gt := gtUpdate prms st.Gt1 path_t,
    Gt1 := gtUpdate prms st.Gt1 path_t,
    paths := fun r c => st.paths r c + (path_t r c : ℝ),
    recs := st.recs ++ [rec],
    cost := { st.cost with
      netcost := netcostOf dtF expF prms st.cost.cellsize (gtUpdate prms st.Gt1 path_t) } }

/-- One iteration of the edge loop of `simulation` (netsim.py, lines
79-114): look up origin and destination, seed and run the
influence-weighted distance transform, trace the path, then apply the
state update `stepState`. -/
noncomputable def simStep (iwdtF : IwdtFun) (dtF : DtFun) (expF : ℝ → ℝ)
    (prms : SimParams) (fuel segfuel : ℕ) (pts : List (ℤ × ℤ × ℤ))
    (pthId : ℤ) (edge : ℤ × ℤ) (st : SimState) : Option SimState :=
  match ptLookup pts edge.1, ptLookup pts edge.2 with
  | some o, some d =>
    let tr := iwdtF (seedAcs o) st.cost
    match createPaths tr.2.1 tr.2.2 fuel segfuel [o] [d] pthId with
    | some (path_t, PathResult.single rec) => some (stepState dtF expF prms st path_t rec)
    | _ => none
  | _, _ => none

/-- The edge loop of `simulation` over the remaining rows of
`net_layout`, with `k` the running `iterrows` index used as
`start_path`. -/
noncomputable def simRun (iwdtF : IwdtFun) (dtF : DtFun) (expF : ℝ → ℝ)
    (prms : SimParams) (fuel segfuel : ℕ) (pts : List (ℤ × ℤ × ℤ)) :
    List (ℤ × ℤ) → ℤ → SimState → Option SimState
  | [], _, st => some st
  | e :: es, k, st =>
    match simStep iwdtF dtF expF prms fuel segfuel pts k e st with
    | none => none
    | some st' => simRun iwdtF dtF expF prms fuel segfuel pts es (k + 1) st'

/-- `simulation(pts, net_layout, cost_dict, netsim_dict)` (netsim.py,
lines 12-116): run the edge loop from the all-zero initial state.  The
final `Gt`, `paths` and `path_lst` of the Python function are the
components of the returned state. -/
noncomputable def simulation (iwdtF : IwdtFun) (dtF : DtFun) (expF : ℝ → ℝ)
    (prms : SimParams) (fuel segfuel : ℕ) (pts : List (ℤ × ℤ × ℤ))
    (net : List (ℤ × ℤ)) (cost : CostDict) : Option SimState :=
  simRun iwdtF dtF expF prms fuel segfuel pts net 0 (simInit cost)

/-- The per-edge net-cost rewrite `1.0 - np.exp(d / alpha)`
(netsim.py, line 111), with the library exponential. -/
noncomputable def netcostUpdate (alpha d : ℝ) : ℝ := 1 - Real.exp (d / alpha)

/-- The coefficient `alpha` of the admitted configurations, computed as
documented in the `simulation` docstring (netsim.py, line 57):
`alpha = d0 / ln(1 - NC0)`. -/
noncomputable def alphaCoef (d0 NC0 : ℝ) : ℝ := d0 / Real.log (1 - NC0)

/-! Specification-side definitions and concrete fixtures -/

/-- Chebyshev adjacency: two cells lie at Chebyshev distance exactly 1. -/
def cheb1 (p q : ℤ × ℤ) : Prop := max |p.1 - q.1| |p.2 - q.2| = 1

/-- A raster whose every value is 0 or 1. -/
def RasterBin (p : Raster) : Prop := ∀ r c, p r c = 0 ∨ p r c = 1

/-- The raster traced for one destination (the per-destination `pth` of
`create_paths`), zero when the trace does not terminate. -/
def destRaster (blx bly : BGrid) (fuel segfuel : ℕ) (d : ℤ × ℤ) : Raster :=
  match tracePath blx bly fuel segfuel d with
  | some (pth, _) => pth
  | none => zeroRaster

/-- The all-zero backlink grid: every cell is a source. -/
def zbl : BGrid := fun _ _ => 0

/-- Row backlinks of a 1×3 chain grid: all zero. -/
def chX : BGrid := fun _ _ => 0

/-- Column backlinks of a 1×3 chain grid: cells (0,1) and (0,2) point one
cell to the left, cell (0,0) is the source. -/
def chY : BGrid := fun r c => if r = 0 ∧ (c = 1 ∨ c = 2) then -1 else 0

/-- Row backlinks of a cyclic 1×2 grid: all zero. -/
def cycX : BGrid := fun _ _ => 0

/-- Column backlinks of a cyclic 1×2 grid: cell (0,0) points to (0,1) and
cell (0,1) points back to (0,0); no cell has zero offsets. -/
def cycY : BGrid := fun r c => if r = 0 ∧ c = 0 then 1 else if r = 0 ∧ c = 1 then -1 else 0

/-- Row backlinks with a single diagonal two-cell jump: cell (2,2) points
to (0,0). -/
def dgX : BGrid := fun r c => if r = 2 ∧ c = 2 then -2 else 0

/-- Column backlinks of the diagonal-jump grid. -/
def dgY : BGrid := fun r c => if r = 2 ∧ c = 2 then -2 else 0

/-- A trivial influence-weighted distance transform for concrete runs:
returns the seed surface unchanged and all-zero backlink grids. -/
def iwdt0 : IwdtFun := fun acs _ => (acs, zbl, zbl)

/-- A trivial plain distance transform for concrete runs: the zero grid
(every cell at distance 0), which is in particular nonnegative. -/
def dt0 : DtFun := fun _ _ => fun _ _ => 0

/-- A stand-in for `np.exp` in concrete runs whose net-cost values are
not at issue. -/
def exp0 : ℝ → ℝ := fun x => x

/-- A two-point table: point 0 at cell (0,0), point 1 at cell (0,1). -/
def pts0 : List (ℤ × ℤ × ℤ) := [(0, 0, 0), (1, 0, 1)]

/-- A one-edge network: origin id 0, destination id 1. -/
def net0 : List (ℤ × ℤ) := [(0, 1)]

/-- A two-edge network: first 0 → 1, then 0 → 0. -/
def net1 : List (ℤ × ℤ) := [(0, 1), (0, 0)]

/-- A trivial cost dictionary for concrete runs. -/
def cost0 : CostDict :=
  { dem := fun _ _ => 0, netcost := fun _ _ => 0, cellsize := 1, weight := 0, coef := [] }

/-- Simulation parameters with `alpha` from the documented coefficient
formula, used to exercise the net-cost rewrite at an admitted
configuration. -/
noncomputable def prmsC6 : SimParams := { i := 1, Gmax := 1, T := 1, alpha := alphaCoef 1 (1/2) }

/-! List glue lemmas -/

theorem head_glue {α : Type} (t1 : List α) (x p : α) (l2 : List α)
    (h1 : (t1 ++ [x]).head? = some p) (h2 : l2.head? = some x) :
    (t1 ++ l2).head? = some p := by
  cases t1 with
  | nil =>
    simp only [List.nil_append, List.head?_cons, Option.some.injEq] at h1
    rw [List.nil_append, h2, h1]
  | cons a t =>
    simp only [List.cons_append, List.head?_cons] at h1 ⊢
    exact h1

theorem chain_glue {α : Type} (R : α → α → Prop) (t1 : List α) (x : α) (l2 : List α)
    (h1 : List.Chain' R (t1 ++ [x])) (h2 : List.Chain' R l2) (hh : l2.head? = some x) :
    List.Chain' R (t1 ++ l2) := by
  cases l2 with
  | nil => simp at hh
  | cons b l =>
    simp only [List.head?_cons, Option.some.injEq] at hh
    subst hh
    rcases List.chain'_append.1 h1 with ⟨hA, _, hlink⟩
    refine List.chain'_append.2 ⟨hA, h2, ?_⟩
    intro y hy z hz
    simp only [List.head?_cons, Option.mem_def, Option.some.injEq] at hz
    subst hz
    exact hlink y hy b (by simp)

/-! Chebyshev step lemmas -/

theorem abs_shift (a s : ℤ) (hs : s = 1 ∨ s = -1) : |a - (a + s)| = 1 := by
  rcases hs with h | h <;> subst h <;> simp

theorem cheb1_both (r c sR sC : ℤ) (hsR : sR = 1 ∨ sR = -1) (hsC : sC = 1 ∨ sC = -1) :
    cheb1 (r, c) (r + sR, c + sC) := by
  show max |r - (r + sR)| |c - (c + sC)| = 1
  rw [abs_shift r sR hsR, abs_shift c sC hsC]
  simp

theorem cheb1_col (r c sC : ℤ) (hsC : sC = 1 ∨ sC = -1) :
    cheb1 (r, c) (r, c + sC) := by
  show max |r - r| |c - (c + sC)| = 1
  rw [abs_shift c sC hsC]
  simp

theorem cheb1_row (r c sR : ℤ) (hsR : sR = 1 ∨ sR = -1) :
    cheb1 (r, c) (r + sR, c) := by
  show max |r - (r + sR)| |c - c| = 1
  rw [abs_shift r sR hsR]
  simp

/-! Bresenham loop lemmas -/

theorem segmentLoop_stuck (dC dR sC sR r1 c1 r c e : ℤ)
    (hne : ¬(r = r1 ∧ c = c1)) (h1 : ¬(2 * e > -dR)) (h2 : ¬(2 * e < dC)) :
    ∀ fuel path rcs, segmentLoop dC dR sC sR r1 c1 fuel r c e path rcs = none := by
  intro fuel
  induction fuel with
  | zero => intro path rcs; simp [segmentLoop, hne]
  | succ n ih =>
    intro path rcs
    simp only [segmentLoop, if_neg hne, if_neg h1, if_neg h2]
    exact ih _ _

theorem segmentLoop_spec (dC dR sC sR r1 c1 : ℤ)
    (hsC : sC = 1 ∨ sC = -1) (hsR : sR = 1 ∨ sR = -1) :
    ∀ fuel r c e path rcs path2 rcs2,
      segmentLoop dC dR sC sR r1 c1 fuel r c e path rcs = some (path2, rcs2) →
      ∃ t, rcs2 = rcs ++ t ∧ List.Chain' cheb1 (t ++ [(r1, c1)]) ∧
        (t ++ [(r1, c1)]).head? = some (r, c) := by
  intro fuel
  induction fuel with
  | zero =>
    intro r c e path rcs path2 rcs2 h
    by_cases hrc : r = r1 ∧ c = c1
    · simp only [segmentLoop, if_pos hrc, Option.some.injEq, Prod.mk.injEq] at h
      refine ⟨[], by rw [← h.2]; simp, by simp, ?_⟩
      simp [hrc.1, hrc.2]
    · simp [segmentLoop, hrc] at h
  | succ n ih =>
    intro r c e path rcs path2 rcs2 h
    by_cases hrc : r = r1 ∧ c = c1
    · simp only [segmentLoop, if_pos hrc, Option.some.injEq, Prod.mk.injEq] at h
      refine ⟨[], by rw [← h.2]; simp, by simp, ?_⟩
      simp [hrc.1, hrc.2]
    · simp only [segmentLoop, if_neg hrc] at h
      by_cases hb1 : (2 * e > -dR) <;> by_cases hb2 : (2 * e < dC)
      · simp only [if_pos hb1, if_pos hb2] at h
        obtain ⟨t', ht', hch, hhd⟩ := ih _ _ _ _ _ _ _ h
        refine ⟨(r, c) :: t', by rw [ht']; simp, ?_, rfl⟩
        refine List.chain'_cons'.2 ⟨?_, hch⟩
        intro y hy
        rw [Option.mem_def] at hy
        have hy2 : some (r + sR, c + sC) = some y := hhd.symm.trans hy
        injection hy2 with hy3
        rw [← hy3]
        exact cheb1_both r c sR sC hsR hsC
      · simp only [if_pos hb1, if_neg hb2] at h
        obtain ⟨t', ht', hch, hhd⟩ := ih _ _ _ _ _ _ _ h
        refine ⟨(r, c) :: t', by rw [ht']; simp, ?_, rfl⟩
        refine List.chain'_cons'.2 ⟨?_, hch⟩
        intro y hy
        rw [Option.mem_def] at hy
        have hy2 : some (r, c + sC) = some y := hhd.symm.trans hy
        injection hy2 with hy3
        rw [← hy3]
        exact cheb1_col r c sC hsC
      · simp only [if_neg hb1, if_pos hb2] at h
        obtain ⟨t', ht', hch, hhd⟩ := ih _ _ _ _ _ _ _ h
        refine ⟨(r, c) :: t', by rw [ht']; simp, ?_, rfl⟩
        refine List.chain'_cons'.2 ⟨?_, hch⟩
        intro y hy
        rw [Option.mem_def] at hy
        have hy2 : some (r + sR, c) = some y := hhd.symm.trans hy
        injection hy2 with hy3
        rw [← hy3]
        exact cheb1_row r c sR hsR
      · simp only [if_neg hb1, if_neg hb2] at h
        rw [segmentLoop_stuck dC dR sC sR r1 c1 r c e hrc hb1 hb2] at h
        exact absurd h (by simp)

theorem segment_spec (fuel : ℕ) (r0 c0 r1 c1 : ℤ) (path : Raster) (rcs : List (ℤ × ℤ))
    (path2 : Raster) (rcs2 : List (ℤ × ℤ))
    (h : segment fuel r0 c0 r1 c1 path rcs = some (path2, rcs2)) :
    ∃ t, rcs2 = rcs ++ t ∧ List.Chain' cheb1 (t ++ [(r1, c1)]) ∧
      (t ++ [(r1, c1)]).head? = some (r0, c0) := by
  have hsC : (if c0 < c1 then (1 : ℤ) else -1) = 1 ∨ (if c0 < c1 then (1 : ℤ) else -1) = -1 := by
    split
    · exact Or.inl rfl
    · exact Or.inr rfl
  have hsR : (if r0 < r1 then (1 : ℤ) else -1) = 1 ∨ (if r0 < r1 then (1 : ℤ) else -1) = -1 := by
    split
    · exact Or.inl rfl
    · exact Or.inr rfl
  exact segmentLoop_spec _ _ _ _ r1 c1 hsC hsR fuel r0 c0 _ path rcs path2 rcs2 h

theorem traceLoop_spec (blx bly : BGrid) (segfuel : ℕ) :
    ∀ fuel r c pth rcs pth2 rcs2 rf cf,
      traceLoop blx bly segfuel fuel r c pth rcs = some (pth2, rcs2, rf, cf) →
      ∃ t, rcs2 = rcs ++ t ∧ List.Chain' cheb1 (t ++ [(rf, cf)]) ∧
        (t ++ [(rf, cf)]).head? = some (r, c) ∧ blx rf cf = 0 ∧ bly rf cf = 0 := by
  intro fuel
  induction fuel with
  | zero =>
    intro r c pth rcs pth2 rcs2 rf cf h
    by_cases hz : blx r c = 0 ∧ bly r c = 0
    · simp only [traceLoop, if_pos hz, Option.some.injEq, Prod.mk.injEq] at h
      obtain ⟨-, h2, h3, h4⟩ := h
      refine ⟨[], by rw [← h2]; simp, by simp, ?_, ?_, ?_⟩
      · simp [h3, h4]
      · rw [← h3, ← h4]; exact hz.1
      · rw [← h3, ← h4]; exact hz.2
    · simp [traceLoop, hz] at h
  | succ n ih =>
    intro r c pth rcs pth2 rcs2 rf cf h
    by_cases hz : blx r c = 0 ∧ bly r c = 0
    · simp only [traceLoop, if_pos hz, Option.some.injEq, Prod.mk.injEq] at h
      obtain ⟨-, h2, h3, h4⟩ := h
      refine ⟨[], by rw [← h2]; simp, by simp, ?_, ?_, ?_⟩
      · simp [h3, h4]
      · rw [← h3, ← h4]; exact hz.1
      · rw [← h3, ← h4]; exact hz.2
    · simp only [traceLoop, if_neg hz] at h
      cases hseg : segment segfuel r c (r + blx r c) (c + bly r c) pth rcs with
      | none => rw [hseg] at h; exact absurd h (by simp)
      | some pr =>
        obtain ⟨pth', rcs'⟩ := pr
        rw [hseg] at h
        obtain ⟨t1, ht1, hch1, hhd1⟩ :=
          segment_spec segfuel r c (r + blx r c) (c + bly r c) pth rcs pth' rcs' hseg
        obtain ⟨t2, ht2, hch2, hhd2, hzx, hzy⟩ := ih _ _ _ _ _ _ _ _ h
        refine ⟨t1 ++ t2, ?_, ?_, ?_, hzx, hzy⟩
        · rw [ht2, ht1]; simp
        · rw [List.append_assoc]
          exact chain_glue cheb1 t1 (r + blx r c, c + bly r c) (t2 ++ [(rf, cf)]) hch1 hch2 hhd2
        · rw [List.append_assoc]
          exact head_glue t1 (r + blx r c, c + bly r c) (r, c) (t2 ++ [(rf, cf)]) hhd1 hhd2

theorem tracePath_spec (blx bly : BGrid) (fuel segfuel : ℕ) (d : ℤ × ℤ)
    (pth : Raster) (rcs : List (ℤ × ℤ))
    (h : tracePath blx bly fuel segfuel d = some (pth, rcs)) :
    List.Chain' cheb1 rcs ∧ rcs.head? = some d ∧
      ∃ lst, rcs.getLast? = some lst ∧ blx lst.1 lst.2 = 0 ∧ bly lst.1 lst.2 = 0 := by
  unfold tracePath at h
  cases htl : traceLoop blx bly segfuel fuel d.1 d.2 zeroRaster [] with
  | none => rw [htl] at h; exact absurd h (by simp)
  | some q =>
    obtain ⟨pth', rcs', rf, cf⟩ := q
    rw [htl] at h
    simp only [Option.some.injEq, Prod.mk.injEq] at h
    obtain ⟨-, h2⟩ := h
    obtain ⟨t, ht, hch, hhd, hzx, hzy⟩ := traceLoop_spec blx bly segfuel fuel _ _ _ _ _ _ _ _ htl
    rw [List.nil_append] at ht
    subst ht
    rw [← h2]
    refine ⟨hch, ?_, (rf, cf), List.getLast?_concat _, hzx, hzy⟩
    rw [hhd]

/-! Raster value lemmas: traced rasters are 0/1-valued -/

theorem zeroRaster_bin : RasterBin zeroRaster := fun _ _ => Or.inl rfl

theorem mark_bin (p : Raster) (r c : ℤ) (hp : RasterBin p) : RasterBin (mark p r c) := by
  intro r' c'
  unfold mark
  split
  · exact Or.inr rfl
  · exact hp r' c'

theorem segmentLoop_bin (dC dR sC sR r1 c1 : ℤ) :
    ∀ fuel r c e path rcs path2 rcs2,
      segmentLoop dC dR sC sR r1 c1 fuel r c e path rcs = some (path2, rcs2) →
      RasterBin path → RasterBin path2 := by
  intro fuel
  induction fuel with
  | zero =>
    intro r c e path rcs path2 rcs2 h hp
    by_cases hrc : r = r1 ∧ c = c1
    · simp only [segmentLoop, if_pos hrc, Option.some.injEq, Prod.mk.injEq] at h
      rw [← h.1]; exact hp
    · simp [segmentLoop, hrc] at h
  | succ n ih =>
    intro r c e path rcs path2 rcs2 h hp
    by_cases hrc : r = r1 ∧ c = c1
    · simp only [segmentLoop, if_pos hrc, Option.some.injEq, Prod.mk.injEq] at h
      rw [← h.1]; exact hp
    · simp only [segmentLoop, if_neg hrc] at h
      exact ih _ _ _ _ _ _ _ h (mark_bin path r c hp)

theorem segment_bin (fuel : ℕ) (r0 c0 r1 c1 : ℤ) (path : Raster) (rcs : List (ℤ × ℤ))
    (path2 : Raster) (rcs2 : List (ℤ × ℤ))
    (h : segment fuel r0 c0 r1 c1 path rcs = some (path2, rcs2)) (hp : RasterBin path) :
    RasterBin path2 :=
  segmentLoop_bin _ _ _ _ r1 c1 fuel r0 c0 _ path rcs path2 rcs2 h hp

theorem traceLoop_bin (blx bly : BGrid) (segfuel : ℕ) :
    ∀ fuel r c pth rcs pth2 rcs2 rf cf,
      traceLoop blx bly segfuel fuel r c pth rcs = some (pth2, rcs2, rf, cf) →
      RasterBin pth → RasterBin pth2 := by
  intro fuel
  induction fuel with
  | zero =>
    intro r c pth rcs pth2 rcs2 rf cf h hp
    by_cases hz : blx r c = 0 ∧ bly r c = 0
    · simp only [traceLoop, if_pos hz, Option.some.injEq, Prod.mk.injEq] at h
      rw [← h.1]; exact hp
    · simp [traceLoop, hz] at h
  | succ n ih =>
    intro r c pth rcs pth2 rcs2 rf cf h hp
    by_cases hz : blx r c = 0 ∧ bly r c = 0
    · simp only [traceLoop, if_pos hz, Option.some.injEq, Prod.mk.injEq] at h
      rw [← h.1]; exact hp
    · simp only [traceLoop, if_neg hz] at h
      cases hseg : segment segfuel r c (r + blx r c) (c + bly r c) pth rcs with
      | none => rw [hseg] at h; exact absurd h (by simp)
      | some pr =>
        obtain ⟨pth', rcs'⟩ := pr
        rw [hseg] at h
        exact ih _ _ _ _ _ _ _ _ h (segment_bin segfuel r c _ _ pth rcs pth' rcs' hseg hp)

theorem tracePath_bin (blx bly : BGrid) (fuel segfuel : ℕ) (d : ℤ × ℤ)
    (pth : Raster) (rcs : List (ℤ × ℤ))
    (h : tracePath blx bly fuel segfuel d = some (pth, rcs)) : RasterBin pth := by
  unfold tracePath at h
  cases htl : traceLoop blx bly segfuel fuel d.1 d.2 zeroRaster [] with
  | none => rw [htl] at h; exact absurd h (by simp)
  | some q =>
    obtain ⟨pth', rcs', rf, cf⟩ := q
    rw [htl] at h
    simp only [Option.some.injEq, Prod.mk.injEq] at h
    rw [← h.1]
    exact mark_bin pth' rf cf
      (traceLoop_bin blx bly segfuel fuel _ _ _ _ _ _ _ _ htl zeroRaster_bin)

/-! Lemmas about the several-destinations loop of `create_paths` -/

theorem createPathsMany_recs (blx bly : BGrid) (fuel segfuel : ℕ) (o : ℤ × ℤ)
    (Q : PathRecord → Prop)
    (hQ : ∀ pid d pth rcs, tracePath blx bly fuel segfuel d = some (pth, rcs) →
      Q { id := pid, origin := o, destination := d, track := rcs }) :
    ∀ ds num paths acc P recs,
      createPathsMany blx bly fuel segfuel o ds num paths acc = some (P, recs) →
      (∀ rec ∈ acc, Q rec) → ∀ rec ∈ recs, Q rec := by
  intro ds
  induction ds with
  | nil =>
    intro num paths acc P recs h hacc
    simp only [createPathsMany, Option.some.injEq, Prod.mk.injEq] at h
    rw [← h.2]
    exact hacc
  | cons d ds ih =>
    intro num paths acc P recs h hacc
    simp only [createPathsMany] at h
    cases htp : tracePath blx bly fuel segfuel d with
    | none => rw [htp] at h; exact absurd h (by simp)
    | some pr =>
      obtain ⟨pth, rcs⟩ := pr
      rw [htp] at h
      refine ih _ _ _ _ _ h ?_
      intro rec hrec
      rcases List.mem_append.1 hrec with hl | hr
      · exact hacc rec hl
      · rw [List.mem_singleton.1 hr]
        exact hQ (num + 1) d pth rcs htp

theorem createPathsMany_paths (blx bly : BGrid) (fuel segfuel : ℕ) (o : ℤ × ℤ) :
    ∀ ds num paths acc P recs,
      createPathsMany blx bly fuel segfuel o ds num paths acc = some (P, recs) →
      ∀ r c, P r c = paths r c +
        (ds.map (fun d => destRaster blx bly fuel segfuel d r c)).sum := by
  intro ds
  induction ds with
  | nil =>
    intro num paths acc P recs h r c
    simp only [createPathsMany, Option.some.injEq, Prod.mk.injEq] at h
    rw [← h.1]
    simp
  | cons d ds ih =>
    intro num paths acc P recs h r c
    simp only [createPathsMany] at h
    cases htp : tracePath blx bly fuel segfuel d with
    | none => rw [htp] at h; exact absurd h (by simp)
    | some pr =>
      obtain ⟨pth, rcs⟩ := pr
      rw [htp] at h
      have hrec := ih _ _ _ _ _ h r c
      rw [hrec]
      have hdr : destRaster blx bly fuel segfuel d r c = pth r c := by
        unfold destRaster
        rw [htp]
      rw [List.map_cons, List.sum_cons, hdr]
      simp only [addRaster]
      omega

theorem createPaths_single (blx bly : BGrid) (fuel segfuel : ℕ) (o d : ℤ × ℤ) (k : ℤ)
    (P : Raster) (res : PathResult)
    (h : createPaths blx bly fuel segfuel [o] [d] k = some (P, res)) :
    ∃ pth rcs, tracePath blx bly fuel segfuel d = some (pth, rcs) ∧
      (∀ r c, P r c = pth r c) ∧
      res = PathResult.single { id := k + 1, origin := o, destination := d, track := rcs } := by
  simp only [createPaths, List.length_singleton] at h
  rw [if_neg (by norm_num)] at h
  cases htp : tracePath blx bly fuel segfuel d with
  | none => rw [htp] at h; exact absurd h (by simp)
  | some pr =>
    obtain ⟨pth, rcs⟩ := pr
    rw [htp] at h
    simp only [Option.some.injEq, Prod.mk.injEq] at h
    refine ⟨pth, rcs, rfl, ?_, h.2.symm⟩
    intro r c
    rw [← h.1]
    simp [addRaster, zeroRaster]

theorem createPaths_single_bin (blx bly : BGrid) (fuel segfuel : ℕ) (o d : ℤ × ℤ) (k : ℤ)
    (P : Raster) (res : PathResult)
    (h : createPaths blx bly fuel segfuel [o] [d] k = some (P, res)) :
    ∀ r c, P r c = 0 ∨ P r c = 1 := by
  obtain ⟨pth, rcs, htp, hP, -⟩ := createPaths_single blx bly fuel segfuel o d k P res h
  intro r c
  rw [hP r c]
  exact tracePath_bin blx bly fuel segfuel d pth rcs htp r c

/-! Ground-potential arithmetic -/

theorem gtStep_bounds (T Gmax i g p : ℝ) (hT : 1 ≤ T) (hi : 0 ≤ i) (hiG : i ≤ Gmax)
    (hG : 0 < Gmax) (hp : p = 0 ∨ p = 1) (h0 : 0 ≤ g) (h1 : g ≤ Gmax) :
    0 ≤ g - g / T + p * i * (1 - g / Gmax) ∧ g - g / T + p * i * (1 - g / Gmax) ≤ Gmax := by
  have hT0 : (0 : ℝ) < T := lt_of_lt_of_le one_pos hT
  have hgT_le : g / T ≤ g := div_le_self h0 hT
  have hgT_nn : 0 ≤ g / T := div_nonneg h0 hT0.le
  have hfrac_le : g / Gmax ≤ 1 := (div_le_one hG).2 h1
  have hGg : Gmax * (g / Gmax) = g := by field_simp
  rcases hp with hp | hp
  · subst hp
    have hz : (0 : ℝ) * i * (1 - g / Gmax) = 0 := by ring
    rw [hz]
    constructor <;> linarith
  · subst hp
    have hone : (1 : ℝ) * i * (1 - g / Gmax) = i * (1 - g / Gmax) := by ring
    rw [hone]
    have hnng : 0 ≤ i * (1 - g / Gmax) := mul_nonneg hi (by linarith)
    have key : i * (1 - g / Gmax) ≤ Gmax * (1 - g / Gmax) :=
      mul_le_mul_of_nonneg_right hiG (by linarith)
    have expand : Gmax * (1 - g / Gmax) = Gmax - g := by
      rw [mul_sub, mul_one, hGg]
    constructor <;> linarith

/-! Net-cost arithmetic -/

theorem netcostUpdate_nonneg (alpha d : ℝ) (hd : 0 ≤ d) (ha : alpha < 0) :
    0 ≤ netcostUpdate alpha d := by
  unfold netcostUpdate
  have hdiv : d / alpha ≤ 0 := div_nonpos_of_nonneg_of_nonpos hd ha.le
  have := Real.exp_le_one_iff.2 hdiv
  linarith

theorem alphaCoef_neg (d0 NC0 : ℝ) (hd0 : 0 < d0) (hnc0 : 0 < NC0) (hnc1 : NC0 < 1) :
    alphaCoef d0 NC0 < 0 := by
  unfold alphaCoef
  have hlog : Real.log (1 - NC0) < 0 := Real.log_neg (by linarith) (by linarith)
  exact div_neg_of_pos_of_neg hd0 hlog

/-! Destructuring one simulation step -/

theorem simStep_inv (iwdtF : IwdtFun) (dtF : DtFun) (expF : ℝ → ℝ) (prms : SimParams)
    (fuel segfuel : ℕ) (pts : List (ℤ × ℤ × ℤ)) (k : ℤ) (e : ℤ × ℤ) (st st' : SimState)
    (h : simStep iwdtF dtF expF prms fuel segfuel pts k e st = some st') :
    ∃ o d P rec,
      ptLookup pts e.1 = some o ∧ ptLookup pts e.2 = some d ∧
      createPaths (iwdtF (seedAcs o) st.cost).2.1 (iwdtF (seedAcs o) st.cost).2.2
        fuel segfuel [o] [d] k = some (P, PathResult.single rec) ∧
      st' = stepState dtF expF prms st P rec := by
  unfold simStep at h
  split at h
  · rename_i xa xb o d ho1 ho2
    dsimp only at h
    split at h
    · rename_i path_t rec hcp
      simp only [Option.some.injEq] at h
      exact ⟨o, d, path_t, rec, ho1, ho2, hcp, h.symm⟩
    · exact absurd h (by simp)
  · exact absurd h (by simp)

theorem simStep_Gt1_bounds (iwdtF : IwdtFun) (dtF : DtFun) (expF : ℝ → ℝ) (prms : SimParams)
    (fuel segfuel : ℕ) (pts : List (ℤ × ℤ × ℤ)) (k : ℤ) (e : ℤ × ℤ) (st st' : SimState)
    (hT : 1 ≤ prms.T) (hi : 0 ≤ prms.i) (hiG : prms.i ≤ prms.Gmax) (hG : 0 < prms.Gmax)
    (h : simStep iwdtF dtF expF prms fuel segfuel pts k e st = some st')
    (hst : ∀ r c, 0 ≤ st.Gt1 r c ∧ st.Gt1 r c ≤ prms.Gmax) :
    (∀ r c, 0 ≤ st'.Gt1 r c ∧ st'.Gt1 r c ≤ prms.Gmax) ∧ st'.Gt = st'.Gt1 := by
  obtain ⟨o, d, P, rec, -, -, hcp, hst'⟩ :=
    simStep_inv iwdtF dtF expF prms fuel segfuel pts k e st st' h
  subst hst'
  refine ⟨?_, rfl⟩
  intro r c
  have hbin := createPaths_single_bin _ _ fuel segfuel o d k P _ hcp
  have hp : ((P r c : ℕ) : ℝ) = 0 ∨ ((P r c : ℕ) : ℝ) = 1 := by
    rcases hbin r c with h1 | h1 <;> rw [h1] <;> norm_num
  exact gtStep_bounds prms.T prms.Gmax prms.i (st.Gt1 r c) _ hT hi hiG hG hp
    (hst r c).1 (hst r c).2

theorem simRun_Gt_bounds (iwdtF : IwdtFun) (dtF : DtFun) (expF : ℝ → ℝ) (prms : SimParams)
    (fuel segfuel : ℕ) (pts : List (ℤ × ℤ × ℤ))
    (hT : 1 ≤ prms.T) (hi : 0 ≤ prms.i) (hiG : prms.i ≤ prms.Gmax) (hG : 0 < prms.Gmax) :
    ∀ net k st st', simRun iwdtF dtF expF prms fuel segfuel pts net k st = some st' →
      (∀ r c, 0 ≤ st.Gt1 r c ∧ st.Gt1 r c ≤ prms.Gmax) → st.Gt = st.Gt1 →
      (∀ r c, 0 ≤ st'.Gt1 r c ∧ st'.Gt1 r c ≤ prms.Gmax) ∧ st'.Gt = st'.Gt1 := by
  intro net
  induction net with
  | nil =>
    intro k st st' h h1 h2
    simp only [simRun, Option.some.injEq] at h
    rw [← h]
    exact ⟨h1, h2⟩
  | cons e es ih =>
    intro k st st' h h1 h2
    simp only [simRun] at h
    cases hs : simStep iwdtF dtF expF prms fuel segfuel pts k e st with
    | none => rw [hs] at h; exact absurd h (by simp)
    | some st1 =>
      rw [hs] at h
      obtain ⟨hb, hg⟩ := simStep_Gt1_bounds iwdtF dtF expF prms fuel segfuel pts k e st st1
        hT hi hiG hG hs h1
      exact ih (k + 1) st1 st' h hb hg

/-! Record predicates over both branches of `create_paths` -/

theorem createPaths_recs (blx bly : BGrid) (fuel segfuel : ℕ)
    (origin ds : List (ℤ × ℤ)) (k : ℤ) (P : Raster) (res : PathResult)
    (Q : PathRecord → Prop)
    (hQ : ∀ pid o d pth rcs, tracePath blx bly fuel segfuel d = some (pth, rcs) →
      Q { id := pid, origin := o, destination := d, track := rcs })
    (h : createPaths blx bly fuel segfuel origin ds k = some (P, res)) :
    ∀ rec ∈ resRecords res, Q rec := by
  cases origin with
  | nil => simp [createPaths] at h
  | cons o os =>
    cases ds with
    | nil => simp [createPaths] at h
    | cons d ds2 =>
      simp only [createPaths] at h
      by_cases hlen : 1 < (d :: ds2).length
      · rw [if_pos hlen] at h
        cases hm : createPathsMany blx bly fuel segfuel o (d :: ds2) k zeroRaster [] with
        | none => rw [hm] at h; exact absurd h (by simp)
        | some pr =>
          obtain ⟨paths, recs⟩ := pr
          rw [hm] at h
          simp only [Option.some.injEq, Prod.mk.injEq] at h
          rw [← h.2]
          intro rec hrec
          exact createPathsMany_recs blx bly fuel segfuel o Q (fun pid d pth rcs htp =>
              hQ pid o d pth rcs htp) (d :: ds2) k zeroRaster [] paths recs hm
            (by intro x hx; exact absurd hx (List.not_mem_nil x)) rec hrec
      · rw [if_neg hlen] at h
        cases htp : tracePath blx bly fuel segfuel d with
        | none => rw [htp] at h; exact absurd h (by simp)
        | some pr =>
          obtain ⟨pth, rcs⟩ := pr
          rw [htp] at h
          simp only [Option.some.injEq, Prod.mk.injEq] at h
          rw [← h.2]
          intro rec hrec
          simp only [resRecords, List.mem_singleton] at hrec
          subst hrec
          exact hQ (k + 1) o d pth rcs htp

/-! Claim theorems -/

/-- Claim C1, counterexample: on a 1×3 chain whose backlinks lead from
(0,2) through (0,1) to the origin (0,0), the track returned by
`create_paths` is `[(0,2),(0,1),(0,0)]`: its first cell is the
destination (0,2), not the origin (0,0), so the visited list is not
reversed before being stored. -/
theorem netsim_C1_counterexample :
    (match createPaths chX chY 10 10 [((0 : ℤ), (0 : ℤ))] [((0 : ℤ), (2 : ℤ))] 0 with
      | some (_, PathResult.single rec) => rec.track
      | _ => []) = [((0 : ℤ), (2 : ℤ)), (0, 1), (0, 0)] ∧
    (match createPaths chX chY 10 10 [((0 : ℤ), (0 : ℤ))] [((0 : ℤ), (2 : ℤ))] 0 with
      | some (_, PathResult.single rec) => rec.track
      | _ => []).head? ≠ some ((0 : ℤ), (0 : ℤ)) := by
  constructor
  · rfl
  · decide

/-- Claim C1 (amended): every track produced by `create_paths` is ordered
from destination to origin: the visited list is stored without being
reversed, so the track's first cell is the record's destination and its
last cell is the cell where the backlink walk stopped, whose backlink
offsets are (0,0). -/
theorem netsim_C1_track_order (blx bly : BGrid) (fuel segfuel : ℕ)
    (origin ds : List (ℤ × ℤ)) (k : ℤ) (P : Raster) (res : PathResult)
    (h : createPaths blx bly fuel segfuel origin ds k = some (P, res)) :
    ∀ rec ∈ resRecords res, rec.track.head? = some rec.destination ∧
      ∃ lst, rec.track.getLast? = some lst ∧ blx lst.1 lst.2 = 0 ∧ bly lst.1 lst.2 = 0 := by
  refine createPaths_recs blx bly fuel segfuel origin ds k P res _ ?_ h
  intro pid o d pth rcs htp
  obtain ⟨-, hhd, lst, hlast, hzx, hzy⟩ := tracePath_spec blx bly fuel segfuel d pth rcs htp
  exact ⟨hhd, lst, hlast, hzx, hzy⟩

/-- Claim C1, witness: the amended theorem applied to the concrete 1×3
chain grid with destination (0,2). -/
theorem netsim_C1_witness :
    ∃ P res, createPaths chX chY 10 10 [((0 : ℤ), (0 : ℤ))] [((0 : ℤ), (2 : ℤ))] 0 =
        some (P, res) ∧
      ∀ rec ∈ resRecords res, rec.track.head? = some rec.destination ∧
        ∃ lst, rec.track.getLast? = some lst ∧ chX lst.1 lst.2 = 0 ∧ chY lst.1 lst.2 = 0 :=
  ⟨_, _, rfl, netsim_C1_track_order chX chY 10 10 [((0 : ℤ), (0 : ℤ))]
    [((0 : ℤ), (2 : ℤ))] 0 _ _ rfl⟩

/-- Claim C2, counterexample: on the 1×3 chain grid with the two
destinations (0,1) and (0,2), both traced paths pass through the origin
cell (0,0); the raster returned by `create_paths` holds 2 there (the
cell-wise sum), while the cell-wise OR of the two 0/1 per-destination
rasters holds 1, so the combined raster is not the OR. -/
theorem netsim_C2_counterexample :
    (match createPaths chX chY 10 10 [((0 : ℤ), (0 : ℤ))]
        [((0 : ℤ), (1 : ℤ)), ((0 : ℤ), (2 : ℤ))] 0 with
      | some (P, _) => P 0 0
      | none => 0) = 2 ∧
    max (destRaster chX chY 10 10 ((0 : ℤ), (1 : ℤ)) 0 0)
      (destRaster chX chY 10 10 ((0 : ℤ), (2 : ℤ)) 0 0) = 1 ∧ (2 : ℕ) ≠ 1 := by
  refine ⟨rfl, rfl, ?_⟩
  decide

/-- Claim C2 (amended): with one shared origin and more than one
destination, the combined raster returned by `create_paths` is the
cell-wise SUM of the per-destination path rasters (`paths += pth`), not
their OR: a cell shared by several of the batch's paths counts once per
path containing it. -/
theorem netsim_C2_sum (blx bly : BGrid) (fuel segfuel : ℕ)
    (origin ds : List (ℤ × ℤ)) (k : ℤ) (P : Raster) (res : PathResult)
    (hlen : 1 < ds.length)
    (h : createPaths blx bly fuel segfuel origin ds k = some (P, res)) :
    ∀ r c, P r c = (ds.map (fun d => destRaster blx bly fuel segfuel d r c)).sum := by
  cases origin with
  | nil => simp [createPaths] at h
  | cons o os =>
    simp only [createPaths] at h
    rw [if_pos hlen] at h
    cases hm : createPathsMany blx bly fuel segfuel o ds k zeroRaster [] with
    | none => rw [hm] at h; exact absurd h (by simp)
    | some pr =>
      obtain ⟨paths, recs⟩ := pr
      rw [hm] at h
      simp only [Option.some.injEq, Prod.mk.injEq] at h
      intro r c
      rw [← h.1]
      have := createPathsMany_paths blx bly fuel segfuel o ds k zeroRaster [] paths recs hm r c
      rw [this]
      simp [zeroRaster]

/-- Claim C2, witness: the amended sum identity applied to the concrete
1×3 chain grid with the two destinations (0,1) and (0,2). -/
theorem netsim_C2_witness :
    1 < ([((0 : ℤ), (1 : ℤ)), ((0 : ℤ), (2 : ℤ))] : List (ℤ × ℤ)).length ∧
    ∃ P res, createPaths chX chY 10 10 [((0 : ℤ), (0 : ℤ))]
        [((0 : ℤ), (1 : ℤ)), ((0 : ℤ), (2 : ℤ))] 0 = some (P, res) ∧
      ∀ r c, P r c = (([((0 : ℤ), (1 : ℤ)), ((0 : ℤ), (2 : ℤ))] : List (ℤ × ℤ)).map
        (fun d => destRaster chX chY 10 10 d r c)).sum :=
  ⟨by decide, _, _, rfl, netsim_C2_sum chX chY 10 10 [((0 : ℤ), (0 : ℤ))]
    [((0 : ℤ), (1 : ℤ)), ((0 : ℤ), (2 : ℤ))] 0 _ _ (by decide) rfl⟩

/-- Claim C3, counterexample: on the cyclic 1×2 grid (cells (0,0) and
(0,1) point at each other) with destination (0,0), running the backlink
loop for rows×cols = 2 iterations does not reach a zero-backlink cell and
`create_paths` raises no error: the fuel-2 embedding returns `none`
(the Python loop is still running), refuting the claimed rows×cols step
bound with a TraceError. -/
theorem netsim_C3_counterexample :
    createPaths cycX cycY 2 8 [((0 : ℤ), (0 : ℤ))] [((0 : ℤ), (0 : ℤ))] 0 = none := by
  rfl

/-- The backlink loop never terminates on the cyclic 1×2 grid: from
either cell, for every iteration bound the loop is still running. -/
theorem traceLoop_cyc :
    ∀ n m (pth : Raster) (rcs : List (ℤ × ℤ)) (c : ℤ), (c = 0 ∨ c = 1) →
      traceLoop cycX cycY m n 0 c pth rcs = none := by
  intro n
  induction n with
  | zero =>
    intro m pth rcs c hc
    rcases hc with h | h <;> subst h <;> simp [traceLoop, cycX, cycY]
  | succ k ih =>
    intro m pth rcs c hc
    rcases hc with h | h <;> subst h
    · have hz : ¬(cycX 0 0 = 0 ∧ cycY 0 0 = 0) := by simp [cycX, cycY]
      simp only [traceLoop, if_neg hz]
      cases hseg : segment m 0 0 (0 + cycX 0 0) (0 + cycY 0 0) pth rcs with
      | none => rfl
      | some pr =>
        obtain ⟨pth2, rcs2⟩ := pr
        exact ih m pth2 rcs2 1 (Or.inr rfl)
    · have hz : ¬(cycX 0 1 = 0 ∧ cycY 0 1 = 0) := by simp [cycX, cycY]
      simp only [traceLoop, if_neg hz]
      cases hseg : segment m 0 1 (0 + cycX 0 1) (1 + cycY 0 1) pth rcs with
      | none => rfl
      | some pr =>
        obtain ⟨pth2, rcs2⟩ := pr
        exact ih m pth2 rcs2 0 (Or.inl rfl)

/-- Claim C3 (amended): the backlink-following loop of `create_paths` has
no step-count bound and no TraceError exists in the code: on the cyclic
1×2 backlink grid the loop never reaches a cell with zero offsets, so for
EVERY iteration bound (fuel) the embedded `create_paths` reports the loop
still running (`none`) — the Python code loops forever rather than
raising an error. -/
theorem netsim_C3_unbounded :
    ∀ fuel segfuel : ℕ,
      createPaths cycX cycY fuel segfuel [((0 : ℤ), (0 : ℤ))] [((0 : ℤ), (0 : ℤ))] 0 = none := by
  intro fuel segfuel
  have htp : tracePath cycX cycY fuel segfuel ((0 : ℤ), (0 : ℤ)) = none := by
    unfold tracePath
    rw [traceLoop_cyc fuel segfuel zeroRaster [] 0 (Or.inl rfl)]
  simp only [createPaths]
  rw [if_neg (by norm_num)]
  rw [htp]

/-- Claim C7: every track returned by `create_paths` is 8-connected:
consecutive track cells lie at Chebyshev distance exactly 1, because each
backlink jump is rasterized by the Bresenham `__segment` routine, which
includes a segment's first cell and excludes its last. -/
theorem netsim_C7_chain (blx bly : BGrid) (fuel segfuel : ℕ)
    (origin ds : List (ℤ × ℤ)) (k : ℤ) (P : Raster) (res : PathResult)
    (h : createPaths blx bly fuel segfuel origin ds k = some (P, res)) :
    ∀ rec ∈ resRecords res, List.Chain' cheb1 rec.track := by
  refine createPaths_recs blx bly fuel segfuel origin ds k P res _ ?_ h
  intro pid o d pth rcs htp
  exact (tracePath_spec blx bly fuel segfuel d pth rcs htp).1

/-- Claim C7, witness: the chain theorem applied to a concrete grid with
a multi-cell diagonal jump: cell (2,2) carries backlink offsets (-2,-2),
so the traced track is [(2,2),(1,1),(0,0)], whose consecutive cells are
at Chebyshev distance 1. -/
theorem netsim_C7_witness :
    ∃ P res, createPaths dgX dgY 10 10
        [((0 : ℤ), (0 : ℤ))] [((2 : ℤ), (2 : ℤ))] 0 = some (P, res) ∧
      ∀ rec ∈ resRecords res, List.Chain' cheb1 rec.track := by
  have h := netsim_C7_chain dgX dgY 10 10
    [((0 : ℤ), (0 : ℤ))] [((2 : ℤ), (2 : ℤ))] 0 _ _ rfl
  exact ⟨_, _, rfl, h⟩

/-- Claim C9: the shape of the second return value of `create_paths`
depends on the number of destinations: the result is a list of records
exactly when there is more than one destination, and a single bare record
when there is exactly one. -/
theorem netsim_C9_shape (blx bly : BGrid) (fuel segfuel : ℕ)
    (origin ds : List (ℤ × ℤ)) (k : ℤ) (P : Raster) (res : PathResult)
    (h : createPaths blx bly fuel segfuel origin ds k = some (P, res)) :
    (∃ l, res = PathResult.many l) ↔ 1 < ds.length := by
  cases origin with
  | nil => simp [createPaths] at h
  | cons o os =>
    cases ds with
    | nil => simp [createPaths] at h
    | cons d ds2 =>
      simp only [createPaths] at h
      by_cases hlen : 1 < (d :: ds2).length
      · rw [if_pos hlen] at h
        cases hm : createPathsMany blx bly fuel segfuel o (d :: ds2) k zeroRaster [] with
        | none => rw [hm] at h; exact absurd h (by simp)
        | some pr =>
          obtain ⟨paths, recs⟩ := pr
          rw [hm] at h
          simp only [Option.some.injEq, Prod.mk.injEq] at h
          constructor
          · intro _; exact hlen
          · intro _; exact ⟨recs, h.2.symm⟩
      · rw [if_neg hlen] at h
        cases htp : tracePath blx bly fuel segfuel d with
        | none => rw [htp] at h; exact absurd h (by simp)
        | some pr =>
          obtain ⟨pth, rcs⟩ := pr
          rw [htp] at h
          simp only [Option.some.injEq, Prod.mk.injEq] at h
          constructor
          · intro hex
            obtain ⟨l, hl⟩ := hex
            rw [← h.2] at hl
            exact absurd hl (by simp)
          · intro hcon
            exact absurd hcon hlen

/-- Claim C9, witness: the shape theorem applied to a concrete
two-destination call, whose result is a `many` list. -/
theorem netsim_C9_witness :
    ∃ P res, createPaths chX chY 10 10 [((0 : ℤ), (0 : ℤ))]
        [((0 : ℤ), (1 : ℤ)), ((0 : ℤ), (2 : ℤ))] 0 = some (P, res) ∧
      ((∃ l, res = PathResult.many l) ↔
        1 < ([((0 : ℤ), (1 : ℤ)), ((0 : ℤ), (2 : ℤ))] : List (ℤ × ℤ)).length) :=
  ⟨_, _, rfl, netsim_C9_shape chX chY 10 10 [((0 : ℤ), (0 : ℤ))]
    [((0 : ℤ), (1 : ℤ)), ((0 : ℤ), (2 : ℤ))] 0 _ _ rfl⟩

/-- Claim C10: when both backlink grids are zero at the single
destination cell, the backlink loop body never runs and `create_paths`
returns the one-cell track [destination] together with a raster that is
1 at the destination and 0 everywhere else. -/
theorem netsim_C10_trivial (blx bly : BGrid) (fuel segfuel : ℕ) (o d : ℤ × ℤ) (k : ℤ)
    (hx : blx d.1 d.2 = 0) (hy : bly d.1 d.2 = 0) :
    createPaths blx bly fuel segfuel [o] [d] k =
      some (fun r c => if r = d.1 ∧ c = d.2 then 1 else 0,
        PathResult.single { id := k + 1, origin := o, destination := d, track := [d] }) := by
  have htl : traceLoop blx bly segfuel fuel d.1 d.2 zeroRaster [] =
      some (zeroRaster, [], d.1, d.2) := by
    cases fuel <;> simp [traceLoop, hx, hy]
  have htp : tracePath blx bly fuel segfuel d =
      some (mark zeroRaster d.1 d.2, [(d.1, d.2)]) := by
    unfold tracePath
    rw [htl]
    rfl
  have hfun : addRaster zeroRaster (mark zeroRaster d.1 d.2) =
      (fun r c => if r = d.1 ∧ c = d.2 then 1 else 0 : Raster) := by
    funext r c
    simp [addRaster, mark, zeroRaster]
  simp only [createPaths]
  rw [if_neg (by norm_num)]
  rw [htp]
  show some (addRaster zeroRaster (mark zeroRaster d.1 d.2),
      PathResult.single { id := k + 1, origin := o, destination := d, track := [(d.1, d.2)] }) =
    some (fun r c => if r = d.1 ∧ c = d.2 then 1 else 0,
      PathResult.single { id := k + 1, origin := o, destination := d, track := [d] })
  rw [hfun]

/-- Claim C10, witness: the trivial-trace theorem applied to the all-zero
backlink grids with origin and destination both (0,0). -/
theorem netsim_C10_witness :
    zbl (0 : ℤ) (0 : ℤ) = 0 ∧
    createPaths zbl zbl 3 3 [((0 : ℤ), (0 : ℤ))] [((0 : ℤ), (0 : ℤ))] 0 =
      some (fun r c => if r = ((0 : ℤ), (0 : ℤ)).1 ∧ c = ((0 : ℤ), (0 : ℤ)).2 then 1 else 0,
        PathResult.single { id := (0 : ℤ) + 1,
                            origin := ((0 : ℤ), (0 : ℤ)),
                            destination := ((0 : ℤ), (0 : ℤ)),
                            track := [((0 : ℤ), (0 : ℤ))] }) :=
  ⟨rfl, netsim_C10_trivial zbl zbl 3 3 ((0 : ℤ), (0 : ℤ)) ((0 : ℤ), (0 : ℤ)) 0 rfl rfl⟩

/-- Claim C4, counterexample: the bound `0 ≤ Gt ≤ Gmax` fails under the
claim's own hypotheses `i ≥ 0, Gmax > 0, T > 0`, initial `Gt = 0`.
First run: i = 2, Gmax = 1, T = 1; after one edge whose path covers cell
(0,1), `Gt(0,1) = 2 > Gmax`.  Second run: i = 1, Gmax = 2, T = 1/2; after
a second edge whose path avoids (0,1), `Gt(0,1) = -1 < 0`. -/
theorem netsim_C4_counterexample :
    ((simulation iwdt0 dt0 exp0 { i := 2, Gmax := 1, T := 1, alpha := -1 } 5 5
        pts0 net0 cost0).map (fun st => st.Gt 0 1) = some 2 ∧ ¬((2 : ℝ) ≤ 1)) ∧
    ((simulation iwdt0 dt0 exp0 { i := 1, Gmax := 2, T := 1/2, alpha := -1 } 5 5
        pts0 net1 cost0).map (fun st => st.Gt 0 1) = some (-1) ∧ ¬((0 : ℝ) ≤ -1)) := by
  constructor
  · constructor
    · show some ((0 : ℝ) - (0 : ℝ) / 1 + ((1 : ℕ) : ℝ) * 2 * (1 - (0 : ℝ) / 1)) = some 2
      norm_num
    · norm_num
  · constructor
    · show some (((0 : ℝ) - (0 : ℝ) / (1/2) + ((1 : ℕ) : ℝ) * 1 * (1 - (0 : ℝ) / 2))
          - ((0 : ℝ) - (0 : ℝ) / (1/2) + ((1 : ℕ) : ℝ) * 1 * (1 - (0 : ℝ) / 2)) / (1/2)
          + ((0 : ℕ) : ℝ) * 1 *
            (1 - ((0 : ℝ) - (0 : ℝ) / (1/2) + ((1 : ℕ) : ℝ) * 1 * (1 - (0 : ℝ) / 2)) / 2)) =
        some (-1)
      norm_num
    · norm_num

/-- Claim C4 (amended): with the stronger parameter hypotheses `T ≥ 1`
and `0 ≤ i ≤ Gmax` (and `Gmax > 0`), every successful run of `simulation`
from the all-zero initial ground potential keeps `0 ≤ Gt ≤ Gmax` at every
cell — after every edge, since every prefix of an edge list is itself a
run. -/
theorem netsim_C4_bounds (iwdtF : IwdtFun) (dtF : DtFun) (expF : ℝ → ℝ) (prms : SimParams)
    (fuel segfuel : ℕ) (pts : List (ℤ × ℤ × ℤ)) (net : List (ℤ × ℤ)) (cost : CostDict)
    (st : SimState)
    (hT : 1 ≤ prms.T) (hi : 0 ≤ prms.i) (hiG : prms.i ≤ prms.Gmax) (hG : 0 < prms.Gmax)
    (h : simulation iwdtF dtF expF prms fuel segfuel pts net cost = some st) :
    ∀ r c, 0 ≤ st.Gt r c ∧ st.Gt r c ≤ prms.Gmax := by
  obtain ⟨hb, hg⟩ := simRun_Gt_bounds iwdtF dtF expF prms fuel segfuel pts hT hi hiG hG
    net 0 (simInit cost) st h (fun r c => ⟨le_refl 0, hG.le⟩) rfl
  intro r c
  rw [hg]
  exact hb r c

/-- Claim C4, witness: the amended bound applied to a concrete one-edge
run with i = 1, Gmax = 1, T = 1. -/
theorem netsim_C4_witness :
    (1 : ℝ) ≤ 1 ∧ (0 : ℝ) < 1 ∧
    ∃ st, simulation iwdt0 dt0 exp0 { i := 1, Gmax := 1, T := 1, alpha := -1 } 5 5
        pts0 net0 cost0 = some st ∧
      ∀ r c, 0 ≤ st.Gt r c ∧ st.Gt r c ≤ (1 : ℝ) := by
  have h := netsim_C4_bounds iwdt0 dt0 exp0 { i := 1, Gmax := 1, T := 1, alpha := -1 } 5 5
    pts0 net0 cost0 _ (le_refl 1) (by norm_num) (le_refl 1) (by norm_num) rfl
  exact ⟨le_refl 1, by norm_num, _, rfl, h⟩

/-- Claim C5: at each simulation step, the new ground potential equals
exactly `Gt_prev - Gt_prev/T + P_k * i * (1 - Gt_prev/Gmax)` cell-wise,
where `P_k` is the single-edge path raster traced for edge k and
`Gt_prev` is the ground potential after edge k-1 (the state's `Gt_1`,
zero before the first edge). -/
theorem netsim_C5_gt_formula (iwdtF : IwdtFun) (dtF : DtFun) (expF : ℝ → ℝ)
    (prms : SimParams) (fuel segfuel : ℕ) (pts : List (ℤ × ℤ × ℤ)) (k : ℤ) (e : ℤ × ℤ)
    (st st' : SimState)
    (h : simStep iwdtF dtF expF prms fuel segfuel pts k e st = some st') :
    ∃ o d P rec,
      ptLookup pts e.1 = some o ∧ ptLookup pts e.2 = some d ∧
      createPaths (iwdtF (seedAcs o) st.cost).2.1 (iwdtF (seedAcs o) st.cost).2.2
        fuel segfuel [o] [d] k = some (P, PathResult.single rec) ∧
      ∀ r c, st'.Gt r c = st.Gt1 r c - st.Gt1 r c / prms.T
        + (P r c : ℝ) * prms.i * (1 - st.Gt1 r c / prms.Gmax) := by
  obtain ⟨o, d, P, rec, ho1, ho2, hcp, hst'⟩ :=
    simStep_inv iwdtF dtF expF prms fuel segfuel pts k e st st' h
  subst hst'
  exact ⟨o, d, P, rec, ho1, ho2, hcp, fun r c => rfl⟩

/-- Claim C5, witness: the step formula at a concrete first edge. -/
theorem netsim_C5_witness :
    ∃ st', simStep iwdt0 dt0 exp0 { i := 1, Gmax := 1, T := 1, alpha := -1 } 5 5
        pts0 0 ((0 : ℤ), (1 : ℤ)) (simInit cost0) = some st' ∧
      ∃ o d P rec,
        ptLookup pts0 ((0 : ℤ), (1 : ℤ)).1 = some o ∧
        ptLookup pts0 ((0 : ℤ), (1 : ℤ)).2 = some d ∧
        createPaths (iwdt0 (seedAcs o) (simInit cost0).cost).2.1
          (iwdt0 (seedAcs o) (simInit cost0).cost).2.2 5 5 [o] [d] 0 =
          some (P, PathResult.single rec) ∧
        ∀ r c, st'.Gt r c = (simInit cost0).Gt1 r c - (simInit cost0).Gt1 r c / (1 : ℝ)
          + (P r c : ℝ) * (1 : ℝ) * (1 - (simInit cost0).Gt1 r c / (1 : ℝ)) := by
  have h := netsim_C5_gt_formula iwdt0 dt0 exp0 { i := 1, Gmax := 1, T := 1, alpha := -1 }
    5 5 pts0 0 ((0 : ℤ), (1 : ℤ)) (simInit cost0) _ rfl
  exact ⟨_, rfl, h⟩

/-- Claim C6: the net-cost overlay written by the simulator's per-edge
rewrite `netcost = 1 - exp(d/alpha)` is nonnegative at every cell,
provided the distance grid `d` is nonnegative (as a distance transform's
output is) and `alpha` comes from the documented coefficient formula
`alpha = d0 / ln(1 - NC0)` with `d0 > 0` and `0 < NC0 < 1`, which makes
`alpha < 0`. -/
theorem netsim_C6_netcost_nonneg (iwdtF : IwdtFun) (dtF : DtFun) (prms : SimParams)
    (fuel segfuel : ℕ) (pts : List (ℤ × ℤ × ℤ)) (k : ℤ) (e : ℤ × ℤ) (st st' : SimState)
    (d0 NC0 : ℝ) (hd0 : 0 < d0) (hnc0 : 0 < NC0) (hnc1 : NC0 < 1)
    (halpha : prms.alpha = alphaCoef d0 NC0)
    (hdt : ∀ g cs r c, 0 ≤ dtF g cs r c)
    (h : simStep iwdtF dtF Real.exp prms fuel segfuel pts k e st = some st') :
    ∀ r c, 0 ≤ st'.cost.netcost r c := by
  obtain ⟨o, d, P, rec, -, -, -, hst'⟩ :=
    simStep_inv iwdtF dtF Real.exp prms fuel segfuel pts k e st st' h
  subst hst'
  intro r c
  have ha : prms.alpha < 0 := by
    rw [halpha]
    exact alphaCoef_neg d0 NC0 hd0 hnc0 hnc1
  exact netcostUpdate_nonneg prms.alpha
    (dtF (dtSeed (gtUpdate prms st.Gt1 P)) st.cost.cellsize r c) (hdt _ _ _ _) ha

/-- Claim C6, witness: the nonnegativity of the rewritten net cost at a
concrete step with `alpha = 1 / ln(1 - 1/2)` and the zero distance
transform. -/
theorem netsim_C6_witness :
    ∃ st', simStep iwdt0 dt0 Real.exp prmsC6 5 5 pts0 0 ((0 : ℤ), (1 : ℤ))
        (simInit cost0) = some st' ∧
      ∀ r c, 0 ≤ st'.cost.netcost r c := by
  have h := netsim_C6_netcost_nonneg iwdt0 dt0 prmsC6 5 5 pts0 0 ((0 : ℤ), (1 : ℤ))
    (simInit cost0) _ 1 (1/2) (by norm_num) (by norm_num) (by norm_num) rfl
    (fun g cs r c => le_refl 0) rfl
  exact ⟨_, rfl, h⟩

/-- Claim C8: the simulation is deterministic: two runs given the same
point table, the same ordered edge list and the same initial cost
dictionary (with the same transform functions and parameters) produce
identical final ground potentials, identical cumulative path rasters and
identical ordered record lists. -/
theorem netsim_C8_deterministic (iwdtF : IwdtFun) (dtF : DtFun) (expF : ℝ → ℝ)
    (prms : SimParams) (fuel segfuel : ℕ)
    (ptsA ptsB : List (ℤ × ℤ × ℤ)) (netA netB : List (ℤ × ℤ)) (costA costB : CostDict)
    (hp : ptsA = ptsB) (hn : netA = netB) (hc : costA = costB) :
    (simulation iwdtF dtF expF prms fuel segfuel ptsA netA costA).map SimState.Gt =
      (simulation iwdtF dtF expF prms fuel segfuel ptsB netB costB).map SimState.Gt ∧
    (simulation iwdtF dtF expF prms fuel segfuel ptsA netA costA).map SimState.paths =
      (simulation iwdtF dtF expF prms fuel segfuel ptsB netB costB).map SimState.paths ∧
    (simulation iwdtF dtF expF prms fuel segfuel ptsA netA costA).map SimState.recs =
      (simulation iwdtF dtF expF prms fuel segfuel ptsB netB costB).map SimState.recs := by
  subst hp
  subst hn
  subst hc
  exact ⟨rfl, rfl, rfl⟩

/-- Claim C8, witness: determinism at a concrete one-edge run. -/
theorem netsim_C8_witness :
    pts0 = pts0 ∧
    (simulation iwdt0 dt0 exp0 { i := 1, Gmax := 1, T := 1, alpha := -1 } 5 5
        pts0 net0 cost0).map SimState.Gt =
      (simulation iwdt0 dt0 exp0 { i := 1, Gmax := 1, T := 1, alpha := -1 } 5 5
        pts0 net0 cost0).map SimState.Gt ∧
    (simulation iwdt0 dt0 exp0 { i := 1, Gmax := 1, T := 1, alpha := -1 } 5 5
        pts0 net0 cost0).map SimState.paths =
      (simulation iwdt0 dt0 exp0 { i := 1, Gmax := 1, T := 1, alpha := -1 } 5 5
        pts0 net0 cost0).map SimState.paths ∧
    (simulation iwdt0 dt0 exp0 { i := 1, Gmax := 1, T := 1, alpha := -1 } 5 5
        pts0 net0 cost0).map SimState.recs =
      (simulation iwdt0 dt0 exp0 { i := 1, Gmax := 1, T := 1, alpha := -1 } 5 5
        pts0 net0 cost0).map SimState.recs :=
  ⟨rfl, netsim_C8_deterministic iwdt0 dt0 exp0 { i := 1, Gmax := 1, T := 1, alpha := -1 }
    5 5 pts0 pts0 net0 net0 cost0 cost0 rfl rfl rfl⟩

end Netsim
